import Mathlib

/-!
Verification of the NirvanaTraffic worker (`worker.js`, `lib/shared.js`,
`journeys/organic.js`, `journeys/squidoosh.js`) against its natural-language
specification.  JS strings are modelled as `List Char`; `String.prototype`
operations (`toLowerCase`, `includes`, `startsWith`, `endsWith`, `split`,
`trim`, `replace` of the anchored regexes used by the code) are given
executable definitions below.  JS numbers appearing in the scoring code are
small integers and exact small rationals, so `Nat` and `Rat` model them
exactly (the only division, `wordsFound / bizWords.length`, compares against
0.75 and 0.5; with word counts far below 2^26 the IEEE-754 comparison agrees
with the exact rational comparison, so `Rat` is a faithful model).
-/

/-- Strings of the JS source, modelled as lists of characters. -/
abbrev Str := List Char

/-- JS `String.prototype.toLowerCase` (ASCII case folding, which is all the
worker's inputs use). -/
def toLowerStr (s : Str) : Str := s.map Char.toLower

/-- JS `haystack.includes(needle)`: substring test. -/
def isSubstr (needle hay : Str) : Bool :=
  needle.isPrefixOf hay ||
    match hay with
    | [] => false
    | _ :: t => isSubstr needle t

/-- Whitespace as matched by the `\s` class of the source's `split(/\s+/)`
(the characters that occur in the worker's inputs). -/
def isWs (c : Char) : Bool := c = ' ' || c = '\t' || c = '\n' || c = '\r'

/-- Accumulator for `wordsOf`: `cur` holds the current word reversed. -/
def wordsOfAux (cur : Str) : Str → List Str
  | [] => if cur = [] then [] else [cur.reverse]
  | c :: t =>
    if isWs c then
      if cur = [] then wordsOfAux [] t else cur.reverse :: wordsOfAux [] t
    else wordsOfAux (c :: cur) t

/-- Maximal runs of non-whitespace characters.  JS `s.split(/\s+/)` returns
these runs plus possibly empty strings at the ends; the code immediately
filters with `w.length > 1`, which discards those empties, so composing
`wordsOf` with the same filter is extensionally equal to the source. -/
def wordsOf (s : Str) : List Str := wordsOfAux [] s

/-- JS `s.replace(/^https?:\/\//, "")`. -/
def stripScheme (s : Str) : Str :=
  if ("https://".toList).isPrefixOf s then s.drop 8
  else if ("http://".toList).isPrefixOf s then s.drop 7
  else s

/-- JS `s.replace(/^www\./, "")`. -/
def stripWww (s : Str) : Str :=
  if ("www.".toList).isPrefixOf s then s.drop 4 else s

/-- JS `s.split("/")[0]`. -/
def takeToSlash (s : Str) : Str := s.takeWhile (· ≠ '/')

/-- JS `s.trim()`. -/
def trimStr (s : Str) : Str :=
  ((s.dropWhile isWs).reverse.dropWhile isWs).reverse

/-- The domain extracted from a target URL by `scoreMatch` and by the organic
scan: `(targetUrl || "").toLowerCase().replace(/^https?:\/\//, "")
.replace(/^www\./, "").split("/")[0]` (lib/shared.js line 38 and
journeys/organic.js line 127). -/
def urlLowOf (targetUrl : Str) : Str :=
  takeToSlash (stripWww (stripScheme (toLowerStr targetUrl)))

/-- Business-name words of length `> 1`:
`bizLow.split(/\s+/).filter((w) => w.length > 1)` (lib/shared.js line 37). -/
def bizWordsOf (bizLow : Str) : List Str :=
  (wordsOf bizLow).filter (fun w => 1 < w.length)

/-- The ratio-bonus of `scoreMatch`:
`wordRatio = bizWords.length > 0 ? wordsFound / bizWords.length : 0;`
`if (wordRatio >= 0.75) score += 70; else if (wordRatio >= 0.5) score += 40;`
(lib/shared.js lines 46-48).  The JS float comparisons `wordsFound / n >=
0.75` and `>= 0.5` agree with the exact rational comparisons for the word
counts involved (far below 2^26), and those in turn are the integer
cross-multiplications used here; `ratioBonus_eq_ratBonus` below proves the
equivalence with the rational-division form. -/
def ratioBonus (wordsFound total : ℕ) : ℕ :=
  if total = 0 then 0
  else if 3 * total ≤ 4 * wordsFound then 70
  else if total ≤ 2 * wordsFound then 40
  else 0

/-- The target-match scorer `scoreMatch(text, href, targetBusiness, targetUrl)`
of lib/shared.js lines 35-50 (identical copies live in worker.js lines
306-318 and in part_003 lines 35-50). -/
def scoreMatch (text href targetBusiness targetUrl : Str) : ℕ :=
  let bizLow := toLowerStr targetBusiness
  let bizWords := bizWordsOf bizLow
  let urlLow := urlLowOf targetUrl
  let t := toLowerStr text
  let h := toLowerStr href
  let s1 : ℕ := if isSubstr bizLow t then 100 else 0
  let s2 : ℕ := if urlLow ≠ [] ∧ isSubstr urlLow h then 90 else 0
  let s3 : ℕ := if urlLow ≠ [] ∧ isSubstr urlLow t then 80 else 0
  let wordsFound := (bizWords.filter (fun w => isSubstr w t)).length
  s1 + s2 + s3 + ratioBonus wordsFound bizWords.length

/-- The word-ratio bonus written the way the source and the spec write it,
with an exact rational division; used to justify `ratioBonus`. -/
def ratBonus (wordsFound total : ℕ) : ℕ :=
  if (3 : ℚ) / 4 ≤ (if 0 < total then (wordsFound : ℚ) / (total : ℚ) else 0) then 70
  else if (1 : ℚ) / 2 ≤ (if 0 < total then (wordsFound : ℚ) / (total : ℚ) else 0) then 40
  else 0

/-- The host part of a link as the organic scan computes it:
`href.toLowerCase().replace(/^https?:\/\//, "").replace(/^www\./, "")
.split("/")[0]` (journeys/organic.js line 128). -/
def hostOf (href : Str) : Str :=
  takeToSlash (stripWww (stripScheme (toLowerStr href)))

/-! Decomposition of `scoreMatch` into its four independent signals. -/

/-- Signal `if (t.includes(bizLow)) score += 100`. -/
def sigName (text targetBusiness : Str) : ℕ :=
  if isSubstr (toLowerStr targetBusiness) (toLowerStr text) then 100 else 0

/-- Signal `if (urlLow && h.includes(urlLow)) score += 90`. -/
def sigHref (href targetUrl : Str) : ℕ :=
  if urlLowOf targetUrl ≠ [] ∧ isSubstr (urlLowOf targetUrl) (toLowerStr href) then 90 else 0

/-- Signal `if (urlLow && t.includes(urlLow)) score += 80`. -/
def sigText (text targetUrl : Str) : ℕ :=
  if urlLowOf targetUrl ≠ [] ∧ isSubstr (urlLowOf targetUrl) (toLowerStr text) then 80 else 0

/-- `bizWords.filter((w) => t.includes(w)).length`. -/
def wordsFoundOf (text targetBusiness : Str) : ℕ :=
  ((bizWordsOf (toLowerStr targetBusiness)).filter
    (fun w => isSubstr w (toLowerStr text))).length

/-- The ratio-bonus signal of `scoreMatch`. -/
def sigOverlap (text targetBusiness : Str) : ℕ :=
  ratioBonus (wordsFoundOf text targetBusiness)
    (bizWordsOf (toLowerStr targetBusiness)).length

/-- The `domainMatch` disjunct of the organic scan (journeys/organic.js lines
127-129): `targetDomain && (hrefDomain === targetDomain ||
hrefDomain.endsWith("." + targetDomain) ||
href.toLowerCase().includes(targetDomain))`, with
`targetDomain`/`hrefDomain` computed as `urlLowOf targetUrl`/`hostOf href`. -/
def domainMatch (targetUrl href : Str) : Bool :=
  urlLowOf targetUrl ≠ [] ∧
    (hostOf href = urlLowOf targetUrl ∨
     ('.' :: urlLowOf targetUrl).isSuffixOf (hostOf href) ∨
     isSubstr (urlLowOf targetUrl) (toLowerStr href))

/-! Result-page scanning.  A `Candidate` is one scanned (text, link) pair;
`isAd`/`isMaps` record the DOM facts the organic scan checks by walking up
the ancestor chain (journeys/organic.js lines 82-117), which a pure
embedding must take as given per candidate. -/

structure Candidate where
  txt : Str
  href : Str
  isAd : Bool
  isMaps : Bool
deriving DecidableEq, Repr

/-- Generic scan loop: the first candidate satisfying `p`, with its
position, scanning in presentation order. -/
def firstWith (p : Candidate → Bool) : List Candidate → ℕ → Option (ℕ × Candidate)
  | [], _ => none
  | c :: rest, i => if p c then some (i, c) else firstWith p rest (i + 1)

/-- Threshold guard of the squidoosh maps and organic strategies:
`scoreMatch(txt, href, targetBusiness, targetUrl) >= 50` (part_003 lines
741 and 763). -/
def thresholdClick (tb tu : Str) (c : Candidate) : Bool :=
  decide (50 ≤ scoreMatch c.txt c.href tb tu)

/-- Guard of the squidoosh broad-scan strategy, which first skips candidates
with `txt.trim().length < 3` (part_003 lines 783-784). -/
def broadClick (tb tu : Str) (c : Candidate) : Bool :=
  !decide ((trimStr c.txt).length < 3) && decide (50 ≤ scoreMatch c.txt c.href tb tu)

/-- Skip test of the organic scan for Google-internal links
(journeys/organic.js line 120): `href.startsWith("/search") ||
href.startsWith("https://www.google.com/search") ||
href.includes("google.com/maps")`. -/
def isGoogleInternal (href : Str) : Bool :=
  ("/search".toList).isPrefixOf href ||
  ("https://www.google.com/search".toList).isPrefixOf href ||
  isSubstr ("google.com/maps".toList) href

/-- A candidate the organic scan does not skip: not an ad, not a local-pack
entry, not a Google-internal link (journeys/organic.js lines 82-122). -/
def organicEligible (c : Candidate) : Bool :=
  !c.isAd && !c.isMaps && !isGoogleInternal c.href

/-- Click guard of the organic scan loop (journeys/organic.js lines 82-156):
skip ads, local-pack entries and Google-internal links, then click when
`score >= 50 || domainMatch`. -/
def organicClick (tb tu : Str) (c : Candidate) : Bool :=
  organicEligible c &&
    (decide (50 ≤ scoreMatch c.txt c.href tb tu) || domainMatch tu c.href)

/-- The scan loop of `scanOrganicResults` (journeys/organic.js lines 77-159)
over the collected candidate list: the first non-skipped candidate whose
guard holds is clicked.  The returned index is 0-based (the source's `rank`
is this index plus one). -/
def scanOrganicResults (tb tu : Str) (cands : List Candidate) : Option (ℕ × Candidate) :=
  firstWith (organicClick tb tu) cands 0

/-- The scan strategies of the squidoosh journey, in the order the source
tries them. -/
inductive Strategy
  | maps
  | organic
  | broad
deriving DecidableEq, Repr

/-- The result scan of the squidoosh journey `run` (part_003 lines 729-794):
maps/local-pack candidates first, then organic, then broad scan, each in
presentation order, stopping at the first clicked candidate. -/
def squidooshScan (tb tu : Str) (mapsC orgC broadC : List Candidate) :
    Option (Strategy × ℕ × Candidate) :=
  match firstWith (thresholdClick tb tu) mapsC 0 with
  | some (i, c) => some (.maps, i, c)
  | none =>
    match firstWith (thresholdClick tb tu) orgC 0 with
    | some (i, c) => some (.organic, i, c)
    | none =>
      match firstWith (broadClick tb tu) broadC 0 with
      | some (i, c) => some (.broad, i, c)
      | none => none

/-- The score function exactly as claim C1 words it: the `+90` signal reads
the candidate link's host (scheme and `www.` stripped) and asks whether it
contains the target domain, and the `+90`/`+80` signals carry no
nonempty-domain guard. -/
def claimScore (text href tb tu : Str) : ℕ :=
  sigName text tb
  + (if isSubstr (urlLowOf tu) (hostOf href) then 90 else 0)
  + (if isSubstr (urlLowOf tu) (toLowerStr text) then 80 else 0)
  + ratBonus (wordsFoundOf text tb) (bizWordsOf (toLowerStr tb)).length

/-- The additive-signal score as amended: the `+90` signal tests the whole
lowercased link URL (not its host) for the target domain, and the domain
signals require a nonempty target domain. -/
def specScoreAmended (text href tb tu : Str) : ℕ :=
  sigName text tb + sigHref href tu + sigText text tu
  + ratBonus (wordsFoundOf text tb) (bizWordsOf (toLowerStr tb)).length

/-- The result scan exactly as claim C3 words it: the first candidate whose
score meets the threshold wins, scanning local-pack candidates before
organic before broad, within each strategy in presentation order — with no
further condition on any candidate. -/
def claimScanC3 (tb tu : Str) (mapsC orgC broadC : List Candidate) :
    Option (Strategy × ℕ × Candidate) :=
  match firstWith (thresholdClick tb tu) mapsC 0 with
  | some (i, c) => some (.maps, i, c)
  | none =>
    match firstWith (thresholdClick tb tu) orgC 0 with
    | some (i, c) => some (.organic, i, c)
    | none =>
      match firstWith (thresholdClick tb tu) broadC 0 with
      | some (i, c) => some (.broad, i, c)
      | none => none

/-! Job orchestrator: retry loop, poll query, result persistence
(worker.js v3 / part_000; the v2 worker.js has the same `processJob` and
`poll`). -/

/-- `rand(min, max) = Math.floor(Math.random() * (max - min) + min)`
(lib/shared.js lines 25-27): with `Math.random()` in `[0, 1)` the result is
an integer in `[min, max)`.  The random source is an arbitrary natural `r`;
`min + r % (max - min)` produces exactly the reachable outputs. -/
def randM (r min max : ℕ) : ℕ := min + r % (max - min)

/-- What one journey attempt reports back to `processJob`: the fields of the
returned result object that the orchestrator reads (`captcha`, `success`,
`error`), plus the attempt's wall-clock duration. -/
structure AttemptResult where
  captcha : Bool
  success : Bool
  error : Option Str
  durationMs : ℕ

/-- The retry loop of `processJob` (part_000 lines 61-68, worker.js lines
446-452): `for (attempt = 1; attempt <= 5; attempt++) { result = await
journey.run(job); if (!result.captcha) break; await backoff; }`.
`attemptsFrom outcomes a fuel` is the number of attempts executed when the
loop starts at attempt number `a` with `fuel` iterations left, given the
outcome of every attempt. -/
def attemptsFrom (outcomes : ℕ → AttemptResult) (a : ℕ) : ℕ → ℕ
  | 0 => 0
  | fuel + 1 =>
    1 + (if (outcomes a).captcha then attemptsFrom outcomes (a + 1) fuel else 0)

/-- Number of journey attempts `processJob` executes: attempts are numbered
1.. and the loop bound is 5. -/
def numAttempts (outcomes : ℕ → AttemptResult) : ℕ := attemptsFrom outcomes 1 5

/-- The `result` left behind by the retry loop: the outcome of the last
executed attempt. -/
def finalResult (outcomes : ℕ → AttemptResult) : AttemptResult :=
  outcomes (numAttempts outcomes)

/-- Session identifiers acquired across the retry loop.  Every attempt runs
`journey.run`, whose `setupBrowserSession` calls `createGoLoginProfile` and
receives a brand-new profile id from the GoLogin API; the allocator is
modelled as a counter starting at `startId`, so attempt `k` uses profile
`startId + k - 1`. -/
def sessionIds (outcomes : ℕ → AttemptResult) (startId : ℕ) : List ℕ :=
  List.range' startId (numAttempts outcomes)

/-- The backoff delays the retry loop sleeps, one after every
captcha-flagged attempt: `await new Promise((r) => setTimeout(r,
rand(2000, 5000)))`. -/
def backoffs (outcomes : ℕ → AttemptResult) (rnd : ℕ → ℕ) : List ℕ :=
  ((List.range' 1 (numAttempts outcomes)).filter
    (fun k => (outcomes k).captcha)).map (fun k => randM (rnd k) 2000 5000)

/-- Status column of the Supabase `jobs` table as the worker reads and
writes it.  The spec's "pending" is the table's `queued`. -/
inductive JobStatus
  | queued
  | running
  | completed
  | failed
deriving DecidableEq, Repr

/-- A row of the `jobs` table.  The store carries a priority and a creation
time; the worker's poll query reads `status` and orders by `created_at`
only. -/
structure JobRow where
  id : ℕ
  status : JobStatus
  priority : ℕ
  created_at : ℕ
deriving DecidableEq, Repr

/-- Ordering used by the poll query: `created_at` ascending. -/
def createdLe (a b : JobRow) : Prop := a.created_at ≤ b.created_at

instance : DecidableRel createdLe := fun a b => Nat.decLe a.created_at b.created_at

instance : IsTotal JobRow createdLe := ⟨fun a b => Nat.le_total a.created_at b.created_at⟩

instance : IsTrans JobRow createdLe := ⟨fun _ _ _ hab hbc => Nat.le_trans hab hbc⟩

/-- The poll query of `poll` (part_000 lines 99-122, worker.js lines
483-506): return if no capacity is left, else fetch rows with
`.eq("status", "queued").order("created_at", { ascending: true })
.limit(MAX_CONCURRENT - activeJobs)`. -/
def pollFetch (rows : List JobRow) (activeJobs maxConcurrent : ℕ) : List JobRow :=
  if maxConcurrent ≤ activeJobs then []
  else (List.insertionSort createdLe
    (rows.filter (fun r => r.status = JobStatus.queued))).take (maxConcurrent - activeJobs)

/-- The job row fields `processJob` writes in its final update (part_000
lines 70-80): status from `result.success`, the error column, and the fact
that a result payload was stored. -/
structure JobRecord where
  status : JobStatus
  error : Option Str
  hasResult : Bool
deriving DecidableEq

/-- The final update of `processJob` (part_000 lines 70-80): after the retry
loop finishes — however long it takes, there is no deadline anywhere in
`processJob` — the result is persisted unconditionally:
`status: result.success ? "completed" : "failed", result, error:
result.error || null`. -/
def processJobFinal (outcomes : ℕ → AttemptResult) : JobRecord :=
  { status := if (finalResult outcomes).success then JobStatus.completed else JobStatus.failed
    error := (finalResult outcomes).error
    hasResult := true }

/-- Wall-clock time the job row spends in status `running`: the durations of
all executed attempts plus the slept backoffs.  Nothing in `processJob`
bounds this. -/
def runningMs (outcomes : ℕ → AttemptResult) (rnd : ℕ → ℕ) : ℕ :=
  ((List.range' 1 (numAttempts outcomes)).map (fun k => (outcomes k).durationMs)).sum
    + (backoffs outcomes rnd).sum

/-! Session lifecycle and CAPTCHA resolution (lib/shared.js as in part_003,
journeys/organic.js). -/

/-- Observable session-lifecycle operations issued by a journey run. -/
inductive SessionEv
  | createProfile (id : ℕ)
  | launchBrowser (id : ℕ)
  | browserClose (id : ℕ)
  | glStop (id : ℕ)
  | deleteProfile (id : ℕ)
deriving DecidableEq, Repr

/-- Where `setupBrowserSession` (part_003 lines 574-634) stops.  Every
outcome except `ok` makes the function throw: `createFails` before any
profile exists, `launchFails` after `createGoLoginProfile` returned a
profile, `blockedAtLanding` after the browser launched, when
`handleCaptcha` returns false and the code runs
`throw new Error("CAPTCHA on Google landing page — blocked")`. -/
inductive SetupOutcome
  | ok
  | createFails
  | launchFails
  | blockedAtLanding
deriving DecidableEq, Repr

/-- Session events of `setupBrowserSession` and the session value it
returns: `none` models a thrown error (the caller's `session` variable is
never assigned). -/
def setupBrowserSessionEvents (pid : ℕ) : SetupOutcome → List SessionEv × Option ℕ
  | .createFails => ([], none)
  | .launchFails => ([.createProfile pid], none)
  | .blockedAtLanding => ([.createProfile pid, .launchBrowser pid], none)
  | .ok => ([.createProfile pid, .launchBrowser pid], some pid)

/-- `cleanup(browser, glApi, profileId)` (part_003 lines 667-674): close the
browser, stop the GoLogin wrapper, delete the profile. -/
def cleanupEvents (pid : ℕ) : List SessionEv :=
  [.browserClose pid, .glStop pid, .deleteProfile pid]

/-- The try/catch/finally skeleton of the organic journey `run`
(journeys/organic.js lines 672-768): `session` is assigned only when
`setupBrowserSession` returns normally, and the `finally` block runs
`cleanup` only under `if (session)`.  `journeyThrows` says whether the
journey body after setup raises; either way the `finally` clause behaves
the same. -/
def organicRunEvents (pid : ℕ) (s : SetupOutcome) (_journeyThrows : Bool) : List SessionEv :=
  match setupBrowserSessionEvents pid s with
  | (evs, none) => evs
  | (evs, some id) => evs ++ cleanupEvents id

/-- Number of `createGoLoginProfile` calls for profile `pid` in a trace. -/
def acquireCount (evs : List SessionEv) (pid : ℕ) : ℕ := evs.count (.createProfile pid)

/-- Number of `deleteGoLoginProfile` calls for profile `pid` in a trace. -/
def teardownCount (evs : List SessionEv) (pid : ℕ) : ℕ := evs.count (.deleteProfile pid)

/-- Page state one CAPTCHA attempt cycle observes (part_003 lines 427-507):
whether the challenge page is gone after the retry reload, the extracted
widget (`none` when the sorry page has no `[data-sitekey]`/`.g-recaptcha`
element), whether `solveRecaptcha` throws, and whether the page leaves
`/sorry/` after the token is submitted. -/
structure CapCycleEnv where
  goneAfterReload : Bool
  widget : Option Str
  solveThrows : Bool
  bypassed : Bool

/-- Observable operations of the CAPTCHA handler. -/
inductive CapEv
  | reload
  | extract
  | invokeSolver (siteKey : Str)
  | submitToken
deriving DecidableEq, Repr

/-- One-loop body of `handleCaptcha` (part_003 lines 430-503; the part_002
variant differs only in reload mechanics and wait times): on attempts after
the first, reload the page first and stop successfully if the challenge is
gone; extract the widget; report a block (`false`) when there is none;
invoke the solving service (a thrown solver error is caught and falls
through to the next attempt); submit the token and stop successfully if
the page left `/sorry/`; otherwise the token was stale — next attempt.
The `Bool` is the handler's return value; after the budget is exhausted it
is `false` (the `captcha_failed` path after the loop). -/
def handleCaptchaGo (env : ℕ → CapCycleEnv) (attempt : ℕ) : ℕ → List CapEv × Bool
  | 0 => ([], false)
  | fuel + 1 =>
    if 1 < attempt ∧ (env attempt).goneAfterReload then
      ((if 1 < attempt then [CapEv.reload] else []), true)
    else
      match (env attempt).widget with
      | none => ((if 1 < attempt then [CapEv.reload] else []) ++ [.extract], false)
      | some key =>
        if (env attempt).solveThrows then
          ((if 1 < attempt then [CapEv.reload] else []) ++ [.extract, .invokeSolver key]
            ++ (handleCaptchaGo env (attempt + 1) fuel).1,
           (handleCaptchaGo env (attempt + 1) fuel).2)
        else if (env attempt).bypassed then
          ((if 1 < attempt then [CapEv.reload] else [])
            ++ [.extract, .invokeSolver key, .submitToken], true)
        else
          ((if 1 < attempt then [CapEv.reload] else [])
            ++ [.extract, .invokeSolver key, .submitToken]
            ++ (handleCaptchaGo env (attempt + 1) fuel).1,
           (handleCaptchaGo env (attempt + 1) fuel).2)

/-- `handleCaptcha(page, context, proxyConfig, log, maxAttempts)` (part_003
lines 427-507): immediately true when the current URL is not a challenge
page, else the attempt loop starting at attempt 1.  The source's default
budget is `maxAttempts = 3`. -/
def handleCaptcha (onCaptchaPage : Bool) (env : ℕ → CapCycleEnv) (maxAttempts : ℕ) :
    List CapEv × Bool :=
  if ¬onCaptchaPage then ([], true) else handleCaptchaGo env 1 maxAttempts

/-- The result the organic journey returns when `handleCaptcha` fails at the
pagination checkpoint (journeys/organic.js lines 728-731): the `captcha`
flag is set, so the orchestrator's retry loop continues. -/
def organicPaginationBlockedResult (d : ℕ) : AttemptResult :=
  { captcha := true, success := false,
    error := some "CAPTCHA during pagination".toList, durationMs := d }

/-- The result the organic journey returns when `setupBrowserSession` throws
because `handleCaptcha` reported a block on the Google landing page: the
`catch` block of `run` (journeys/organic.js lines 762-765) builds the
result without any `captcha` field, so the orchestrator reads a falsy
`captcha`. -/
def organicBlockedAtSetupResult (d : ℕ) : AttemptResult :=
  { captcha := false, success := false,
    error := some "CAPTCHA on Google landing page — blocked".toList, durationMs := d }

/-- Number of parameter extractions (attempt cycles that reached the widget
check) in a CAPTCHA handler trace. -/
def countExtract : List CapEv → ℕ
  | [] => 0
  | CapEv.extract :: t => 1 + countExtract t
  | _ :: t => countExtract t

theorem ratioBonus_eq_ratBonus (wf n : ℕ) : ratioBonus wf n = ratBonus wf n := by
  unfold ratioBonus ratBonus
  rcases Nat.eq_zero_or_pos n with h | h
  · subst h; norm_num
  · have hn0 : n ≠ 0 := Nat.pos_iff_ne_zero.mp h
    have hnq : (0 : ℚ) < (n : ℚ) := by exact_mod_cast h
    have h75 : ((3 : ℚ) / 4 ≤ (wf : ℚ) / (n : ℚ)) ↔ 3 * n ≤ 4 * wf := by
      rw [div_le_div_iff₀ (by norm_num) hnq]
      constructor
      · intro hx
        have hx2 : 3 * n ≤ wf * 4 := by exact_mod_cast hx
        omega
      · intro hx
        have hx2 : 3 * n ≤ wf * 4 := by omega
        exact_mod_cast hx2
    have h50 : ((1 : ℚ) / 2 ≤ (wf : ℚ) / (n : ℚ)) ↔ n ≤ 2 * wf := by
      rw [div_le_div_iff₀ (by norm_num) hnq]
      constructor
      · intro hx
        have hx2 : 1 * n ≤ wf * 2 := by exact_mod_cast hx
        omega
      · intro hx
        have hx2 : 1 * n ≤ wf * 2 := by omega
        exact_mod_cast hx2
    rw [if_neg hn0, if_pos h]
    simp only [h75, h50]

example : wordsOf "joes pizza".toList = ["joes".toList, "pizza".toList] := by decide

example : scoreMatch "best pizza joes pizza grill springfield".toList [] "Joes Pizza".toList [] = 170 := by decide

example : scoreMatch "hello".toList "https://evil.com/?q=example.com".toList "qq".toList "example.com".toList = 90 := by decide

example : scoreMatch "ab".toList [] "ab".toList [] = 170 := by decide

example : scoreMatch "xyz".toList [] [] [] = 100 := by decide

/-! Substring facts used to relate `scoreMatch` to the organic scan's
`domainMatch` disjunct. -/

theorem isSubstr_true_iff : ∀ (n hay : Str), isSubstr n hay = true ↔ n <:+: hay
  | n, [] => by
    simp [isSubstr, List.isPrefixOf_iff_prefix]
  | n, c :: t => by
    rw [isSubstr]
    simp [ List.isPrefixOf_iff_prefix, isSubstr_true_iff n t, List.infix_cons_iff]

theorem isSubstr_intro {n hay : Str} (h : n <:+: hay) : isSubstr n hay = true :=
  (isSubstr_true_iff n hay).mpr h

theorem isSubstr_nil (hay : Str) : isSubstr [] hay = true :=
  isSubstr_intro List.nil_infix

theorem stripScheme_suffix (s : Str) : stripScheme s <:+ s := by
  unfold stripScheme
  split
  · exact List.drop_suffix 8 s
  · split
    · exact List.drop_suffix 7 s
    · exact List.suffix_refl s

theorem stripWww_suffix (s : Str) : stripWww s <:+ s := by
  unfold stripWww
  split
  · exact List.drop_suffix 4 s
  · exact List.suffix_refl s

theorem hostOf_infix_lower (href : Str) : hostOf href <:+: toLowerStr href := by
  unfold hostOf takeToSlash
  have h1 : stripWww (stripScheme (toLowerStr href)) <:+ toLowerStr href :=
    (stripWww_suffix _).trans (stripScheme_suffix _)
  exact (( List.takeWhile_prefix _).isInfix).trans h1.isInfix

theorem scoreMatch_eq_sum (text href tb tu : Str) :
    scoreMatch text href tb tu =
      sigName text tb + sigHref href tu + sigText text tu + sigOverlap text tb := rfl

theorem sigHref_le (href tu : Str) : sigHref href tu ≤ 90 := by
  unfold sigHref; split <;> omega

theorem scoreMatch_ge_90_of_href {text href tb tu : Str}
    (h1 : urlLowOf tu ≠ []) (h2 : isSubstr (urlLowOf tu) (toLowerStr href) = true) :
    90 ≤ scoreMatch text href tb tu := by
  rw [scoreMatch_eq_sum]
  have : sigHref href tu = 90 := by unfold sigHref; rw [if_pos ⟨h1, h2⟩]
  omega

theorem scoreMatch_ge_100_of_name {text href tb tu : Str}
    (h : isSubstr (toLowerStr tb) (toLowerStr text) = true) :
    100 ≤ scoreMatch text href tb tu := by
  rw [scoreMatch_eq_sum]
  have : sigName text tb = 100 := by unfold sigName; rw [if_pos h]
  omega

/-- Every way `domainMatch` can hold puts the target domain inside the
lowercased href, so the `+90` signal of `scoreMatch` fires: a
`domainMatch`-selected candidate always scores at least 90. -/
theorem domainMatch_scoreMatch_ge_90 {text href tb tu : Str}
    (h : domainMatch tu href = true) : 90 ≤ scoreMatch text href tb tu := by
  unfold domainMatch at h
  simp only [decide_eq_true_eq, Bool.decide_and, Bool.and_eq_true, decide_eq_true_iff] at h
  obtain ⟨h1, h2⟩ := h
  apply scoreMatch_ge_90_of_href h1
  rcases h2 with h2 | h2 | h2
  · exact isSubstr_intro (h2 ▸ hostOf_infix_lower href)
  · have hsuf : ('.' :: urlLowOf tu) <:+ hostOf href :=
      (List.isSuffixOf_iff_suffix).mp h2
    have htail : urlLowOf tu <:+ ('.' :: urlLowOf tu) := ⟨['.'], rfl⟩
    exact isSubstr_intro ((htail.trans hsuf).isInfix.trans (hostOf_infix_lower href))
  · exact h2

theorem firstWith_prop {p : Candidate → Bool} :
    ∀ {l : List Candidate} {n i : ℕ} {c : Candidate},
      firstWith p l n = some (i, c) → p c = true ∧ c ∈ l
  | [], _, _, _, h => by simp [firstWith] at h
  | x :: rest, n, i, c, h => by
    rw [firstWith] at h
    by_cases hx : p x
    · rw [if_pos hx] at h
      obtain ⟨h1, h2⟩ : n = i ∧ x = c := by simpa using h
      exact ⟨h2 ▸ hx, h2 ▸ List.mem_cons_self x rest⟩
    · rw [if_neg hx] at h
      obtain ⟨hp, hm⟩ := firstWith_prop h
      exact ⟨hp, List.mem_cons_of_mem x hm⟩

theorem firstWith_append {p : Candidate → Bool} :
    ∀ (pre : List Candidate) (c : Candidate) (post : List Candidate) (n : ℕ),
      (∀ x ∈ pre, p x = false) → p c = true →
      firstWith p (pre ++ c :: post) n = some (n + pre.length, c)
  | [], c, post, n, _, hc => by simp [firstWith, hc]
  | x :: pre, c, post, n, hpre, hc => by
    have hx : p x = false := hpre x (List.mem_cons_self x pre)
    have hlen : n + 1 + pre.length = n + (x :: pre).length := by
      rw [List.length_cons]; omega
    rw [List.cons_append, firstWith, if_neg (by simp [hx])]
    rw [firstWith_append pre c post (n + 1) (fun y hy => hpre y (List.mem_cons_of_mem x hy)) hc]
    rw [hlen]

theorem firstWith_none {p : Candidate → Bool} :
    ∀ {l : List Candidate} {n : ℕ}, (∀ x ∈ l, p x = false) → firstWith p l n = none
  | [], _, _ => rfl
  | x :: rest, n, h => by
    rw [firstWith, if_neg (by simp [h x (List.mem_cons_self x rest)])]
    exact firstWith_none fun y hy => h y (List.mem_cons_of_mem x hy)

theorem firstWith_inv {p : Candidate → Bool} :
    ∀ {l : List Candidate} {n i : ℕ} {c : Candidate},
      firstWith p l n = some (i, c) →
      ∃ pre post, l = pre ++ c :: post ∧ i = n + pre.length ∧ ∀ x ∈ pre, p x = false
  | [], _, _, _, h => by simp [firstWith] at h
  | x :: rest, n, i, c, h => by
    rw [firstWith] at h
    by_cases hx : p x
    · rw [if_pos hx] at h
      obtain ⟨h1, h2⟩ : n = i ∧ x = c := by simpa using h
      exact ⟨[], rest, by simp [h2], by simp [h1.symm], by simp⟩
    · rw [if_neg hx] at h
      obtain ⟨pre, post, hl, hi, hpre⟩ := firstWith_inv h
      refine ⟨x :: pre, post, by simp [hl], ?_, ?_⟩
      · rw [hi, List.length_cons]; omega
      · intro y hy
        rcases List.mem_cons.mp hy with rfl | hy
        · simpa using hx
        · exact hpre y hy

theorem firstWith_none_inv {p : Candidate → Bool} :
    ∀ {l : List Candidate} {n : ℕ}, firstWith p l n = none → ∀ x ∈ l, p x = false
  | [], _, _ => by simp
  | x :: rest, n, h => by
    rw [firstWith] at h
    by_cases hx : p x
    · rw [if_pos hx] at h; exact absurd h (by simp)
    · rw [if_neg hx] at h
      intro y hy
      rcases List.mem_cons.mp hy with rfl | hy
      · simpa using hx
      · exact firstWith_none_inv h y hy

theorem thresholdClick_true_iff {tb tu : Str} {c : Candidate} :
    thresholdClick tb tu c = true ↔ 50 ≤ scoreMatch c.txt c.href tb tu := by
  simp [thresholdClick]

theorem thresholdClick_false_iff {tb tu : Str} {c : Candidate} :
    thresholdClick tb tu c = false ↔ scoreMatch c.txt c.href tb tu < 50 := by
  simp [thresholdClick]

theorem broadClick_true_iff {tb tu : Str} {c : Candidate} :
    broadClick tb tu c = true ↔
      3 ≤ (trimStr c.txt).length ∧ 50 ≤ scoreMatch c.txt c.href tb tu := by
  simp [broadClick]

theorem broadClick_false_iff {tb tu : Str} {c : Candidate} :
    broadClick tb tu c = false ↔
      (trimStr c.txt).length < 3 ∨ scoreMatch c.txt c.href tb tu < 50 := by
  rw [← Bool.not_eq_true, broadClick_true_iff]
  omega

theorem organicClick_score {tb tu : Str} {c : Candidate}
    (h : organicClick tb tu c = true) : 50 ≤ scoreMatch c.txt c.href tb tu := by
  unfold organicClick at h
  rw [Bool.and_eq_true, Bool.or_eq_true] at h
  rcases h.2 with h2 | h2
  · simpa using h2
  · have := @domainMatch_scoreMatch_ge_90 c.txt c.href tb tu h2
    omega

theorem organicClick_of_eligible_score {tb tu : Str} {c : Candidate}
    (he : organicEligible c = true) (hs : 50 ≤ scoreMatch c.txt c.href tb tu) :
    organicClick tb tu c = true := by
  unfold organicClick
  rw [Bool.and_eq_true, Bool.or_eq_true]
  exact ⟨he, Or.inl (by simpa using hs)⟩

theorem organicClick_false_of_low {tb tu : Str} {c : Candidate}
    (h : organicEligible c = true → scoreMatch c.txt c.href tb tu < 50) :
    organicClick tb tu c = false := by
  by_cases he : organicEligible c = true
  · have hs := h he
    unfold organicClick
    rw [Bool.and_eq_false_iff]
    right
    rw [Bool.or_eq_false_iff]
    refine ⟨by simpa using Nat.not_le.mpr hs, ?_⟩
    by_cases hd : domainMatch tu c.href = true
    · have := @domainMatch_scoreMatch_ge_90 c.txt c.href tb tu hd
      omega
    · simpa using hd
  · unfold organicClick
    rw [Bool.and_eq_false_iff]
    exact Or.inl (by simpa using he)

theorem ratio75_iff {wf n : ℕ} (h : 0 < n) :
    ((3 : ℚ) / 4 ≤ (wf : ℚ) / (n : ℚ)) ↔ 3 * n ≤ 4 * wf := by
  have hnq : (0 : ℚ) < (n : ℚ) := by exact_mod_cast h
  rw [div_le_div_iff₀ (by norm_num) hnq]
  constructor
  · intro hx
    have hx2 : 3 * n ≤ wf * 4 := by exact_mod_cast hx
    omega
  · intro hx
    have hx2 : 3 * n ≤ wf * 4 := by omega
    exact_mod_cast hx2

theorem ratio50_iff {wf n : ℕ} (h : 0 < n) :
    ((1 : ℚ) / 2 ≤ (wf : ℚ) / (n : ℚ)) ↔ n ≤ 2 * wf := by
  have hnq : (0 : ℚ) < (n : ℚ) := by exact_mod_cast h
  rw [div_le_div_iff₀ (by norm_num) hnq]
  constructor
  · intro hx
    have hx2 : 1 * n ≤ wf * 2 := by exact_mod_cast hx
    omega
  · intro hx
    have hx2 : 1 * n ≤ wf * 2 := by omega
    exact_mod_cast hx2

/-- C1, counterexample.  The claim states that the `+90` signal fires when
the link's host (scheme/`www.` stripped) contains the target domain.  The
code instead tests the whole lowercased href: for displayText `"hello"`,
link `"https://evil.com/?q=example.com"`, business `"qq"` and target URL
`"example.com"` the host `evil.com` does not contain the domain, so the
claimed score is 0, yet `scoreMatch` finds `example.com` in the query
string and returns 90. -/
theorem C1_counterexample :
    scoreMatch "hello".toList "https://evil.com/?q=example.com".toList
        "qq".toList "example.com".toList ≠
      claimScore "hello".toList "https://evil.com/?q=example.com".toList
        "qq".toList "example.com".toList := by
  have h1 : scoreMatch "hello".toList "https://evil.com/?q=example.com".toList
      "qq".toList "example.com".toList = 90 := by decide
  have h2 : claimScore "hello".toList "https://evil.com/?q=example.com".toList
      "qq".toList "example.com".toList = 0 := by
    unfold claimScore
    rw [← ratioBonus_eq_ratBonus]
    decide
  omega

/-- C1, amended.  `score(displayText, link, targetBusiness, targetDomain)`
is the additive sum of independent signals: +100 if the case-folded
displayText contains the case-folded target business name; +90 if the
target domain is nonempty and the whole case-folded link URL contains it
(the scheme/`www.` stripping produces the target domain from the target
URL and is not applied to the link); +80 if the target domain is nonempty
and displayText contains it; and the word-overlap bonus of +70 when the
ratio of found target-name words (length > 1) is ≥ 0.75, else +40 when the
ratio is ≥ 0.5, else 0, with both boundaries inclusive (second conjunct,
stated with the exact rational ratio). -/
theorem C1_amended_score :
    (∀ text href tb tu : Str,
      scoreMatch text href tb tu = specScoreAmended text href tb tu) ∧
    (∀ wf n : ℕ, 0 < n →
      ((ratBonus wf n = 70) ↔ (3 : ℚ) / 4 ≤ (wf : ℚ) / (n : ℚ)) ∧
      ((ratBonus wf n = 40) ↔
        ((1 : ℚ) / 2 ≤ (wf : ℚ) / (n : ℚ) ∧ ¬((3 : ℚ) / 4 ≤ (wf : ℚ) / (n : ℚ))))) := by
  constructor
  · intro text href tb tu
    rw [scoreMatch_eq_sum]
    unfold specScoreAmended sigOverlap wordsFoundOf
    rw [ratioBonus_eq_ratBonus]
  · intro wf n hn
    have hn0 : n ≠ 0 := Nat.pos_iff_ne_zero.mp hn
    rw [← ratioBonus_eq_ratBonus, ratio75_iff hn, ratio50_iff hn]
    unfold ratioBonus
    rw [if_neg hn0]
    constructor
    · split_ifs with h1 h2 <;> simp_all
    · split_ifs with h1 h2 <;> simp_all

/-- Witness for C1's amended theorem: the amended sum evaluates the
"Joe's Pizza"-style scenario to 170, and the ratio bonus is 70 exactly at
the inclusive boundary 3/4. -/
theorem C1_witness :
    specScoreAmended "best pizza joes pizza grill springfield".toList []
        "Joes Pizza".toList [] = 170 ∧ ratBonus 3 4 = 70 := by
  constructor
  · rw [← C1_amended_score.1]
    decide
  · exact ((C1_amended_score.2 3 4 (by norm_num)).1).mpr (by norm_num)

theorem squidooshScan_sound {tb tu : Str} {m o b : List Candidate}
    {st : Strategy} {i : ℕ} {c : Candidate}
    (h : squidooshScan tb tu m o b = some (st, i, c)) :
    (st = .maps ∧ firstWith (thresholdClick tb tu) m 0 = some (i, c)) ∨
    (st = .organic ∧ firstWith (thresholdClick tb tu) m 0 = none ∧
      firstWith (thresholdClick tb tu) o 0 = some (i, c)) ∨
    (st = .broad ∧ firstWith (thresholdClick tb tu) m 0 = none ∧
      firstWith (thresholdClick tb tu) o 0 = none ∧
      firstWith (broadClick tb tu) b 0 = some (i, c)) := by
  unfold squidooshScan at h
  cases h1 : firstWith (thresholdClick tb tu) m 0 with
  | some p =>
    obtain ⟨j, d⟩ := p
    rw [h1] at h
    obtain ⟨rfl, rfl, rfl⟩ : Strategy.maps = st ∧ j = i ∧ d = c := by
      have h' : some (Strategy.maps, j, d) = some (st, i, c) := h
      simpa using h'
    exact Or.inl ⟨rfl, rfl⟩
  | none =>
    rw [h1] at h
    cases h2 : firstWith (thresholdClick tb tu) o 0 with
    | some p =>
      obtain ⟨j, d⟩ := p
      rw [h2] at h
      obtain ⟨rfl, rfl, rfl⟩ : Strategy.organic = st ∧ j = i ∧ d = c := by
        have h' : some (Strategy.organic, j, d) = some (st, i, c) := h
        simpa using h'
      exact Or.inr (Or.inl ⟨rfl, rfl, rfl⟩)
    | none =>
      rw [h2] at h
      cases h3 : firstWith (broadClick tb tu) b 0 with
      | some p =>
        obtain ⟨j, d⟩ := p
        rw [h3] at h
        obtain ⟨rfl, rfl, rfl⟩ : Strategy.broad = st ∧ j = i ∧ d = c := by
          have h' : some (Strategy.broad, j, d) = some (st, i, c) := h
          simpa using h'
        exact Or.inr (Or.inr ⟨rfl, rfl, rfl, rfl⟩)
      | none =>
        rw [h3] at h
        exact absurd h (by simp)

theorem squidooshScan_none_inv {tb tu : Str} {m o b : List Candidate}
    (h : squidooshScan tb tu m o b = none) :
    firstWith (thresholdClick tb tu) m 0 = none ∧
    firstWith (thresholdClick tb tu) o 0 = none ∧
    firstWith (broadClick tb tu) b 0 = none := by
  unfold squidooshScan at h
  cases h1 : firstWith (thresholdClick tb tu) m 0 with
  | some p =>
    obtain ⟨j, d⟩ := p
    rw [h1] at h
    exact absurd h (by simp)
  | none =>
    rw [h1] at h
    cases h2 : firstWith (thresholdClick tb tu) o 0 with
    | some p =>
      obtain ⟨j, d⟩ := p
      rw [h2] at h
      exact absurd h (by simp)
    | none =>
      rw [h2] at h
      cases h3 : firstWith (broadClick tb tu) b 0 with
      | some p =>
        obtain ⟨j, d⟩ := p
        rw [h3] at h
        exact absurd h (by simp)
      | none => exact ⟨rfl, rfl, rfl⟩

theorem squidooshScan_maps_eq {tb tu : Str} {m : List Candidate}
    (o b : List Candidate) {i : ℕ} {c : Candidate}
    (h : firstWith (thresholdClick tb tu) m 0 = some (i, c)) :
    squidooshScan tb tu m o b = some (.maps, i, c) := by
  unfold squidooshScan
  rw [h]

/-- C2.  For every list of candidates, a candidate whose score is exactly 49
(indeed any score below 50) is never clicked by any scan strategy: every
candidate clicked by the organic scan or by any squidoosh strategy scores
at least 50 and hence never 49 (the organic scan's extra `domainMatch`
disjunct cannot rescue a sub-threshold candidate because a domain match
already makes the `+90` signal fire).  Conversely a candidate with score at
least 50 — in particular exactly 50, where the `>= 50` threshold is
inclusive — is clicked when it is the first eligible candidate in scan
order meeting the threshold. -/
theorem C2_threshold_selection (tb tu : Str) :
    (∀ (cands : List Candidate) (i : ℕ) (c : Candidate),
      scanOrganicResults tb tu cands = some (i, c) →
      50 ≤ scoreMatch c.txt c.href tb tu ∧ scoreMatch c.txt c.href tb tu ≠ 49) ∧
    (∀ (mapsC orgC broadC : List Candidate) (st : Strategy) (i : ℕ) (c : Candidate),
      squidooshScan tb tu mapsC orgC broadC = some (st, i, c) →
      50 ≤ scoreMatch c.txt c.href tb tu ∧ scoreMatch c.txt c.href tb tu ≠ 49) ∧
    (∀ (pre : List Candidate) (c : Candidate) (post : List Candidate),
      (∀ x ∈ pre, organicEligible x = true → scoreMatch x.txt x.href tb tu < 50) →
      organicEligible c = true →
      50 ≤ scoreMatch c.txt c.href tb tu →
      scanOrganicResults tb tu (pre ++ c :: post) = some (pre.length, c)) := by
  refine ⟨?_, ?_, ?_⟩
  · intro cands i c h
    have hp := (firstWith_prop h).1
    have hs := organicClick_score hp
    exact ⟨hs, by omega⟩
  · intro m o b st i c h
    rcases squidooshScan_sound h with ⟨_, h1⟩ | ⟨_, _, h1⟩ | ⟨_, _, _, h1⟩
    · have hs := thresholdClick_true_iff.mp (firstWith_prop h1).1
      exact ⟨hs, by omega⟩
    · have hs := thresholdClick_true_iff.mp (firstWith_prop h1).1
      exact ⟨hs, by omega⟩
    · have hs := (broadClick_true_iff.mp (firstWith_prop h1).1).2
      exact ⟨hs, by omega⟩
  · intro pre c post hpre he hs
    unfold scanOrganicResults
    have h0 := firstWith_append pre c post 0
      (fun x hx => organicClick_false_of_low (hpre x hx))
      (organicClick_of_eligible_score he hs)
    simpa using h0

/-- Witness for C2: with target business `"joes pizza"`, a first candidate
scoring 0 and a second eligible candidate scoring 170, the scan clicks the
second candidate (index 1). -/
theorem C2_witness :
    scanOrganicResults "joes pizza".toList []
      [Candidate.mk "plumber reviews".toList "https://other.example".toList false false,
       Candidate.mk "joes pizza delivery".toList "https://site.example".toList false false] =
      some (1, Candidate.mk "joes pizza delivery".toList "https://site.example".toList false false) := by
  have h := (C2_threshold_selection "joes pizza".toList []).2.2
    [Candidate.mk "plumber reviews".toList "https://other.example".toList false false]
    (Candidate.mk "joes pizza delivery".toList "https://site.example".toList false false)
    []
    (by intro x hx _; fin_cases hx; decide)
    (by decide) (by decide)
  simpa using h

/-- C3, counterexample.  With target business `"ab"` and broad-scan
candidates `["ab", "abc"]` (both scoring 170 ≥ 50), the claim says the
first candidate in scan order meeting the threshold — index 0 — is
selected, but the code's broad scan skips it because its trimmed display
text is shorter than 3 characters (`if (txt.trim().length < 3) continue`)
and clicks index 1 instead. -/
theorem C3_counterexample :
    squidooshScan "ab".toList [] [] []
        [Candidate.mk "ab".toList [] false false,
         Candidate.mk "abc".toList [] false false] =
      some (.broad, 1, Candidate.mk "abc".toList [] false false) ∧
    claimScanC3 "ab".toList [] [] []
        [Candidate.mk "ab".toList [] false false,
         Candidate.mk "abc".toList [] false false] =
      some (.broad, 0, Candidate.mk "ab".toList [] false false) ∧
    50 ≤ scoreMatch "ab".toList [] "ab".toList [] := by
  refine ⟨by decide, by decide, by decide⟩

/-- C3, amended.  The squidoosh result scan selects the first candidate
meeting the threshold, examining all local-pack candidates before any
organic candidate, all organic candidates before any broad-scan candidate,
and within each strategy in presentation order — except that in the
broad-scan strategy candidates whose trimmed display text is shorter than
3 characters are skipped regardless of score.  Stated as a full
characterization of the scan's result. -/
theorem C3_scan_order_amended (tb tu : Str) (m o b : List Candidate) :
    (∀ i c, squidooshScan tb tu m o b = some (.maps, i, c) →
      ∃ pre post, m = pre ++ c :: post ∧ i = pre.length ∧
        50 ≤ scoreMatch c.txt c.href tb tu ∧
        ∀ x ∈ pre, scoreMatch x.txt x.href tb tu < 50) ∧
    (∀ i c, squidooshScan tb tu m o b = some (.organic, i, c) →
      (∀ x ∈ m, scoreMatch x.txt x.href tb tu < 50) ∧
      ∃ pre post, o = pre ++ c :: post ∧ i = pre.length ∧
        50 ≤ scoreMatch c.txt c.href tb tu ∧
        ∀ x ∈ pre, scoreMatch x.txt x.href tb tu < 50) ∧
    (∀ i c, squidooshScan tb tu m o b = some (.broad, i, c) →
      (∀ x ∈ m, scoreMatch x.txt x.href tb tu < 50) ∧
      (∀ x ∈ o, scoreMatch x.txt x.href tb tu < 50) ∧
      ∃ pre post, b = pre ++ c :: post ∧ i = pre.length ∧
        3 ≤ (trimStr c.txt).length ∧ 50 ≤ scoreMatch c.txt c.href tb tu ∧
        ∀ x ∈ pre, (trimStr x.txt).length < 3 ∨ scoreMatch x.txt x.href tb tu < 50) ∧
    (squidooshScan tb tu m o b = none →
      (∀ x ∈ m, scoreMatch x.txt x.href tb tu < 50) ∧
      (∀ x ∈ o, scoreMatch x.txt x.href tb tu < 50) ∧
      (∀ x ∈ b, (trimStr x.txt).length < 3 ∨ scoreMatch x.txt x.href tb tu < 50)) := by
  refine ⟨?_, ?_, ?_, ?_⟩
  · intro i c h
    rcases squidooshScan_sound h with ⟨_, h1⟩ | ⟨hst, _⟩ | ⟨hst, _⟩
    · obtain ⟨pre, post, hl, hi, hpre⟩ := firstWith_inv h1
      refine ⟨pre, post, hl, by omega, thresholdClick_true_iff.mp (firstWith_prop h1).1, ?_⟩
      intro x hx
      exact thresholdClick_false_iff.mp (hpre x hx)
    · exact absurd hst (by simp)
    · exact absurd hst (by simp)
  · intro i c h
    rcases squidooshScan_sound h with ⟨hst, _⟩ | ⟨_, hm, h1⟩ | ⟨hst, _⟩
    · exact absurd hst (by simp)
    · refine ⟨fun x hx => thresholdClick_false_iff.mp (firstWith_none_inv hm x hx), ?_⟩
      obtain ⟨pre, post, hl, hi, hpre⟩ := firstWith_inv h1
      refine ⟨pre, post, hl, by omega, thresholdClick_true_iff.mp (firstWith_prop h1).1, ?_⟩
      intro x hx
      exact thresholdClick_false_iff.mp (hpre x hx)
    · exact absurd hst (by simp)
  · intro i c h
    rcases squidooshScan_sound h with ⟨hst, _⟩ | ⟨hst, _⟩ | ⟨_, hm, ho, h1⟩
    · exact absurd hst (by simp)
    · exact absurd hst (by simp)
    · refine ⟨fun x hx => thresholdClick_false_iff.mp (firstWith_none_inv hm x hx),
        fun x hx => thresholdClick_false_iff.mp (firstWith_none_inv ho x hx), ?_⟩
      obtain ⟨pre, post, hl, hi, hpre⟩ := firstWith_inv h1
      have hc := broadClick_true_iff.mp (firstWith_prop h1).1
      refine ⟨pre, post, hl, by omega, hc.1, hc.2, ?_⟩
      intro x hx
      exact broadClick_false_iff.mp (hpre x hx)
  · intro h
    obtain ⟨hm, ho, hb⟩ := squidooshScan_none_inv h
    exact ⟨fun x hx => thresholdClick_false_iff.mp (firstWith_none_inv hm x hx),
      fun x hx => thresholdClick_false_iff.mp (firstWith_none_inv ho x hx),
      fun x hx => broadClick_false_iff.mp (firstWith_none_inv hb x hx)⟩

/-- Witness for C3's amended theorem, applied to a concrete broad-scan
selection: the characterization recovers the skipped short-text prefix. -/
theorem C3_witness :
    ∃ pre post,
      [Candidate.mk "no".toList [] false false,
       Candidate.mk "downtown diner".toList [] false false] =
        pre ++ (Candidate.mk "downtown diner".toList [] false false) :: post ∧
      (1 : ℕ) = pre.length ∧
      3 ≤ (trimStr (Candidate.mk "downtown diner".toList [] false false).txt).length ∧
      50 ≤ scoreMatch "downtown diner".toList [] "Downtown Diner".toList [] ∧
      ∀ x ∈ pre, (trimStr x.txt).length < 3 ∨
        scoreMatch x.txt x.href "Downtown Diner".toList [] < 50 := by
  have h := ((C3_scan_order_amended "Downtown Diner".toList [] [] []
    [Candidate.mk "no".toList [] false false,
     Candidate.mk "downtown diner".toList [] false false]).2.2.1 1
    (Candidate.mk "downtown diner".toList [] false false) (by decide)).2.2
  simpa using h

/-- C10, counterexample.  With an empty target business name every candidate
scores at least 100 (the empty string is a substring of every displayText),
so every candidate meets the threshold — but the very first candidate in
scan order is *not* always selected: the broad scan skips a first candidate
whose trimmed text is shorter than 3 characters and clicks the second one. -/
theorem C10_counterexample :
    100 ≤ scoreMatch "ab".toList [] [] [] ∧
    squidooshScan [] [] [] []
        [Candidate.mk "ab".toList "https://a.example".toList false false,
         Candidate.mk "xyz".toList "https://b.example".toList false false] =
      some (.broad, 1, Candidate.mk "xyz".toList "https://b.example".toList false false) := by
  refine ⟨by decide, by decide⟩

/-- C10, amended.  For every candidate, if the target business name is the
empty string then `scoreMatch` returns at least 100, because the empty
string is a substring of every displayText; consequently every scanned
candidate meets the match threshold, and the first candidate surviving the
scan's content filters is selected — in particular, when the local-pack
strategy has any candidate at all, its very first candidate is selected
regardless of content. -/
theorem C10_empty_business_amended :
    (∀ text href tu : Str, 100 ≤ scoreMatch text href [] tu) ∧
    (∀ (tu : Str) (c : Candidate) (rest o b : List Candidate),
      squidooshScan [] tu (c :: rest) o b = some (.maps, 0, c)) := by
  have hscore : ∀ (text href tu : Str), 100 ≤ scoreMatch text href [] tu := by
    intro text href tu
    exact scoreMatch_ge_100_of_name (isSubstr_nil (toLowerStr text))
  refine ⟨hscore, ?_⟩
  intro tu c rest o b
  apply squidooshScan_maps_eq
  rw [firstWith, if_pos]
  rw [thresholdClick_true_iff]
  have := hscore c.txt c.href tu
  omega

theorem randM_bounds (r min max : ℕ) (h : min < max) :
    min ≤ randM r min max ∧ randM r min max < max := by
  unfold randM
  have := Nat.mod_lt r (show 0 < max - min by omega)
  omega

theorem attemptsFrom_spec (outcomes : ℕ → AttemptResult) :
    ∀ (fuel a : ℕ),
      (0 < fuel → 1 ≤ attemptsFrom outcomes a fuel) ∧
      attemptsFrom outcomes a fuel ≤ fuel ∧
      (∀ j, a ≤ j → j + 1 < a + attemptsFrom outcomes a fuel →
        (outcomes j).captcha = true) ∧
      (0 < fuel → attemptsFrom outcomes a fuel < fuel →
        (outcomes (a + attemptsFrom outcomes a fuel - 1)).captcha = false)
  | 0, a => by
    simp only [attemptsFrom]
    refine ⟨by simp, by simp, ?_, by simp⟩
    intro j h1 h2
    exact absurd h2 (by omega)
  | fuel + 1, a => by
    rw [attemptsFrom]
    by_cases hc : (outcomes a).captcha = true
    · rw [if_pos hc]
      obtain ⟨ih1, ih2, ih3, ih4⟩ := attemptsFrom_spec outcomes fuel (a + 1)
      refine ⟨fun _ => by omega, by omega, ?_, ?_⟩
      · intro j hj1 hj2
        rcases Nat.eq_or_lt_of_le hj1 with rfl | hj1
        · exact hc
        · exact ih3 j (by omega) (by omega)
      · intro _ hlt
        have hf : 0 < fuel := by omega
        have := ih4 hf (by omega)
        have harith : a + 1 + attemptsFrom outcomes (a + 1) fuel - 1 =
            a + (1 + attemptsFrom outcomes (a + 1) fuel) - 1 := by omega
        rw [harith] at this
        exact this
    · rw [if_neg hc]
      refine ⟨fun _ => by omega, by omega, ?_, ?_⟩
      · intro j hj1 hj2
        omega
      · intro _ _
        simpa using hc

/-- C4.  The retry loop of `processJob` runs between 1 and 5 journey
attempts; every attempt before the last reported a CAPTCHA flag and the
loop halts on the first attempt without one (when it stops before the
budget, the last attempt's flag is false); each attempt acquires a distinct
brand-new session identifier; and between consecutive attempts a random
backoff drawn from `rand(2000, 5000)` — i.e. between 2 and 5 seconds — is
slept. -/
theorem C4_retry_loop (outcomes : ℕ → AttemptResult) (startId : ℕ) (rnd : ℕ → ℕ) :
    1 ≤ numAttempts outcomes ∧ numAttempts outcomes ≤ 5 ∧
    (∀ k, 1 ≤ k → k + 1 ≤ numAttempts outcomes → (outcomes k).captcha = true) ∧
    (numAttempts outcomes < 5 → (outcomes (numAttempts outcomes)).captcha = false) ∧
    (sessionIds outcomes startId).Nodup ∧
    (sessionIds outcomes startId).length = numAttempts outcomes ∧
    (∀ d ∈ backoffs outcomes rnd, 2000 ≤ d ∧ d < 5000) ∧
    (∀ k, 1 ≤ k → k + 1 ≤ numAttempts outcomes →
      randM (rnd k) 2000 5000 ∈ backoffs outcomes rnd) := by
  obtain ⟨h1, h2, h3, h4⟩ := attemptsFrom_spec outcomes 5 1
  have h1' : 1 ≤ numAttempts outcomes := h1 (by norm_num)
  refine ⟨h1', h2, ?_, ?_, ?_, ?_, ?_, ?_⟩
  · intro k hk1 hk2
    exact h3 k hk1 (by unfold numAttempts at *; omega)
  · intro hlt
    have := h4 (by norm_num) hlt
    have harith : 1 + numAttempts outcomes - 1 = numAttempts outcomes := by omega
    unfold numAttempts at *
    rw [harith] at this
    exact this
  · exact List.nodup_range' startId (numAttempts outcomes) 1 (by norm_num)
  · simp [sessionIds]
  · intro d hd
    unfold backoffs at hd
    obtain ⟨k, _, rfl⟩ := List.mem_map.mp hd
    exact ⟨(randM_bounds (rnd k) 2000 5000 (by norm_num)).1,
      (randM_bounds (rnd k) 2000 5000 (by norm_num)).2⟩
  · intro k hk1 hk2
    unfold backoffs
    apply List.mem_map.mpr
    refine ⟨k, List.mem_filter.mpr ⟨?_, ?_⟩, rfl⟩
    · apply List.mem_range'_1.mpr
      omega
    · simpa using h3 k hk1 (by unfold numAttempts at *; omega)

/-- Witness for C4: an outcome stream whose first two attempts are
captcha-flagged and whose third is clean runs exactly 3 attempts, uses
3 distinct sessions, and the loop's first backoff of 2500 ms is among the
slept delays. -/
theorem C4_witness :
    numAttempts (fun k => if k < 3 then ⟨true, false, none, 1000⟩
      else ⟨false, true, none, 1000⟩) = 3 ∧
    (sessionIds (fun k => if k < 3 then ⟨true, false, none, 1000⟩
      else ⟨false, true, none, 1000⟩) 10).Nodup ∧
    randM 500 2000 5000 ∈ backoffs (fun k => if k < 3 then ⟨true, false, none, 1000⟩
      else ⟨false, true, none, 1000⟩) (fun _ => 500) := by
  refine ⟨rfl, ?_, ?_⟩
  · exact (C4_retry_loop (fun k => if k < 3 then ⟨true, false, none, 1000⟩
      else ⟨false, true, none, 1000⟩) 10 (fun _ => 500)).2.2.2.2.1
  · exact (C4_retry_loop (fun k => if k < 3 then ⟨true, false, none, 1000⟩
      else ⟨false, true, none, 1000⟩) 10 (fun _ => 500)).2.2.2.2.2.2.2 1
      (by norm_num) (by norm_num [numAttempts, attemptsFrom])

/-- C5, counterexample.  Two queued, due jobs: id 1 with priority 1 created
at time 100, id 2 with priority 5 created at time 200.  The claim says the
priority-5 job is fetched first; the poll query ignores priority and orders
by ascending creation time, so the priority-1 job comes first. -/
theorem C5_counterexample :
    pollFetch [JobRow.mk 1 .queued 1 100, JobRow.mk 2 .queued 5 200] 0 2 =
      [JobRow.mk 1 .queued 1 100, JobRow.mk 2 .queued 5 200] ∧
    (pollFetch [JobRow.mk 1 .queued 1 100, JobRow.mk 2 .queued 5 200] 0 2).head?.map
        JobRow.priority = some 1 := by
  refine ⟨by decide, by decide⟩

/-- C5, amended.  Every poll cycle selects queued jobs ordered by ascending
creation time — priority is never consulted — and fetches at most as many
jobs as the remaining concurrency capacity (none when no capacity is
left); of a priority-5 and a priority-1 job both queued and due, whichever
was created earlier is fetched first. -/
theorem C5_poll_amended (rows : List JobRow) (activeJobs maxConcurrent : ℕ) :
    (pollFetch rows activeJobs maxConcurrent).length ≤ maxConcurrent - activeJobs ∧
    (∀ r ∈ pollFetch rows activeJobs maxConcurrent, r.status = JobStatus.queued) ∧
    (pollFetch rows activeJobs maxConcurrent).Sorted createdLe ∧
    (maxConcurrent ≤ activeJobs → pollFetch rows activeJobs maxConcurrent = []) := by
  unfold pollFetch
  by_cases hcap : maxConcurrent ≤ activeJobs
  · rw [if_pos hcap]
    simp
  · rw [if_neg hcap]
    refine ⟨List.length_take_le _ _, ?_, ?_, fun h => absurd h hcap⟩
    · intro r hr
      have hr2 : r ∈ List.insertionSort createdLe
          (rows.filter (fun r => r.status = JobStatus.queued)) :=
        List.mem_of_mem_take hr
      have hr3 : r ∈ rows.filter (fun r => r.status = JobStatus.queued) :=
        (List.perm_insertionSort createdLe _).mem_iff.mp hr2
      have := (List.mem_filter.mp hr3).2
      simpa using this
    · exact (List.sorted_insertionSort createdLe _).sublist
        (List.take_sublist _ _)

/-- Witness for C5's amended theorem at a concrete job table. -/
theorem C5_witness :
    (∀ r ∈ pollFetch [JobRow.mk 7 .queued 2 300, JobRow.mk 8 .running 9 100,
        JobRow.mk 9 .queued 4 200] 0 1, r.status = JobStatus.queued) ∧
    pollFetch [JobRow.mk 7 .queued 2 300] 3 3 = [] := by
  refine ⟨(C5_poll_amended [JobRow.mk 7 .queued 2 300, JobRow.mk 8 .running 9 100,
      JobRow.mk 9 .queued 4 200] 0 1).2.1, ?_⟩
  exact (C5_poll_amended [JobRow.mk 7 .queued 2 300] 3 3).2.2.2 (by norm_num)

/-- C6, counterexample.  A job whose single successful attempt takes 10^9 ms
(far past the spec's 10-minute staleness threshold plus any small grace
period) is persisted as `completed` with no error after having been
`running` for the whole 10^9 ms: no deadline expires, nothing force-fails
the job with a timeout error. -/
theorem C6_counterexample :
    processJobFinal (fun _ => ⟨false, true, none, 1000000000⟩) =
      { status := JobStatus.completed, error := none, hasResult := true } ∧
    runningMs (fun _ => ⟨false, true, none, 1000000000⟩) (fun _ => 0) = 1000000000 ∧
    600000 + 60000 < 1000000000 := by
  refine ⟨rfl, rfl, by norm_num⟩

/-- C6, amended.  `processJob` wraps the per-job execution in no deadline:
the retry loop runs to completion no matter how long it takes, and a job
can stay `running` longer than any given bound.  What does hold: once the
loop finishes, result persistence always runs — the job row always ends
with a result payload and status `completed` exactly when the final
attempt succeeded, `failed` otherwise — and the recorded error is the
final attempt's error, never a synthesized timeout error. -/
theorem C6_processJob_amended (outcomes : ℕ → AttemptResult) (rnd : ℕ → ℕ) :
    (processJobFinal outcomes).hasResult = true ∧
    ((processJobFinal outcomes).status = JobStatus.completed ∨
      (processJobFinal outcomes).status = JobStatus.failed) ∧
    ((processJobFinal outcomes).status = JobStatus.completed ↔
      (finalResult outcomes).success = true) ∧
    (processJobFinal outcomes).error = (finalResult outcomes).error ∧
    (∀ T : ℕ, ∃ o : ℕ → AttemptResult,
      (processJobFinal o).status = JobStatus.completed ∧ T < runningMs o rnd) := by
  refine ⟨rfl, ?_, ?_, rfl, ?_⟩
  · unfold processJobFinal
    by_cases hs : (finalResult outcomes).success = true
    · simp [hs]
    · simp [hs]
  · unfold processJobFinal
    by_cases hs : (finalResult outcomes).success = true
    · simp [hs]
    · simp [hs]
  · intro T
    refine ⟨fun _ => ⟨false, true, none, T + 1⟩, rfl, ?_⟩
    have hnum : numAttempts (fun _ => (⟨false, true, none, T + 1⟩ : AttemptResult)) = 1 := rfl
    unfold runningMs backoffs
    rw [hnum]
    simp [attemptsFrom]

/-- C7.  The claim — teardown is issued exactly once for every session
acquired, on every exit path — fails on the code: when
`setupBrowserSession` throws after creating the GoLogin profile (here:
CAPTCHA block on the landing page, likewise a launch failure), the caller's
`session` variable is never assigned, its `finally` clause skips `cleanup`,
and the profile is never stopped or deleted — one acquisition, zero
teardowns.  On the paths where setup returns, teardown does run exactly
once, whether or not the journey body throws. -/
theorem C7_teardown_bug :
    acquireCount (organicRunEvents 7 .blockedAtLanding false) 7 = 1 ∧
    teardownCount (organicRunEvents 7 .blockedAtLanding false) 7 = 0 ∧
    acquireCount (organicRunEvents 7 .launchFails false) 7 = 1 ∧
    teardownCount (organicRunEvents 7 .launchFails false) 7 = 0 ∧
    (∀ journeyThrows : Bool,
      acquireCount (organicRunEvents 7 .ok journeyThrows) 7 = 1 ∧
      teardownCount (organicRunEvents 7 .ok journeyThrows) 7 = 1) := by
  exact ⟨rfl, rfl, rfl, rfl, fun _ => ⟨rfl, rfl⟩⟩

theorem countExtract_append :
    ∀ l1 l2 : List CapEv, countExtract (l1 ++ l2) = countExtract l1 + countExtract l2 := by
  intro l1 l2
  induction l1 with
  | nil => simp [countExtract]
  | cons h t ih =>
    cases h
    all_goals simp [countExtract, ih]
    omega

theorem handleCaptchaGo_extract_le (env : ℕ → CapCycleEnv) :
    ∀ (fuel a : ℕ), countExtract (handleCaptchaGo env a fuel).1 ≤ fuel
  | 0, a => by simp [handleCaptchaGo, countExtract]
  | fuel + 1, a => by
    have ih := handleCaptchaGo_extract_le env fuel (a + 1)
    have hpre : countExtract (if 1 < a then [CapEv.reload] else []) = 0 := by
      split <;> rfl
    have h1 : countExtract [CapEv.extract] = 1 := rfl
    have h2 : ∀ k, countExtract [CapEv.extract, CapEv.invokeSolver k] = 1 := fun _ => rfl
    have h3 : ∀ k, countExtract [CapEv.extract, CapEv.invokeSolver k, CapEv.submitToken] = 1 :=
      fun _ => rfl
    rw [handleCaptchaGo]
    split
    · show countExtract (if 1 < a then [CapEv.reload] else []) ≤ fuel + 1
      rw [hpre]
      omega
    · split
      · show countExtract ((if 1 < a then [CapEv.reload] else []) ++ [CapEv.extract]) ≤ fuel + 1
        rw [countExtract_append, hpre, h1]
        omega
      · rename_i key hkey
        split
        · show countExtract ((if 1 < a then [CapEv.reload] else [])
            ++ [CapEv.extract, CapEv.invokeSolver key]
            ++ (handleCaptchaGo env (a + 1) fuel).1) ≤ fuel + 1
          rw [countExtract_append, countExtract_append, hpre, h2 key]
          omega
        · split
          · show countExtract ((if 1 < a then [CapEv.reload] else [])
              ++ [CapEv.extract, CapEv.invokeSolver key, CapEv.submitToken]) ≤ fuel + 1
            rw [countExtract_append, hpre, h3 key]
            omega
          · show countExtract ((if 1 < a then [CapEv.reload] else [])
              ++ [CapEv.extract, CapEv.invokeSolver key, CapEv.submitToken]
              ++ (handleCaptchaGo env (a + 1) fuel).1) ≤ fuel + 1
            rw [countExtract_append, countExtract_append, hpre, h3 key]
            omega

/-- C8.  When a challenge page is detected but no site key can be extracted,
`handleCaptcha` correctly reports an IP-level block (returns false) without
ever invoking the solving service — but the claim's second half fails on
the code: at session setup the thrown "CAPTCHA on Google landing page —
blocked" error is caught by the journey's `catch`, which returns a result
without the `captcha` flag, so the orchestrator's retry loop breaks after
the first attempt and fails the job instead of proceeding to a new attempt
with a fresh identity. -/
theorem C8_ip_block_bug :
    (handleCaptcha true (fun _ => ⟨false, none, false, false⟩) 3).2 = false ∧
    (handleCaptcha true (fun _ => ⟨false, none, false, false⟩) 3).1 = [CapEv.extract] ∧
    (∀ k : Str,
      CapEv.invokeSolver k ∉ (handleCaptcha true (fun _ => ⟨false, none, false, false⟩) 3).1) ∧
    (organicBlockedAtSetupResult 0).captcha = false ∧
    numAttempts (fun _ => organicBlockedAtSetupResult 0) = 1 := by
  refine ⟨rfl, rfl, ?_, rfl, rfl⟩
  intro k hmem
  have hev : (handleCaptcha true (fun _ => ⟨false, none, false, false⟩) 3).1 =
      [CapEv.extract] := rfl
  rw [hev] at hmem
  simp at hmem

/-- C9.  The CAPTCHA handler performs at most `maxAttempts` (default 3) full
attempt cycles; when every cycle fails — widget present, solver succeeds,
page stays on `/sorry/` — the trace is exactly three cycles in which every
cycle after the first reloads the page before re-extracting, each cycle's
parameters coming from the freshly reloaded page state (never the previous
cycle's), and the handler reports failure; and that failure, surfaced at
the pagination checkpoint as a result with the `captcha` flag set,
propagates as a CAPTCHA failure to the orchestrator's retry loop, which
therefore continues through its full 5-attempt budget. -/
theorem C9_captcha_attempts :
    (∀ (env : ℕ → CapCycleEnv) (onPage : Bool) (maxAttempts : ℕ),
      countExtract (handleCaptcha onPage env maxAttempts).1 ≤ maxAttempts) ∧
    (∀ keys : ℕ → Str,
      handleCaptcha true (fun k => ⟨false, some (keys k), false, false⟩) 3 =
        ([CapEv.extract, CapEv.invokeSolver (keys 1), CapEv.submitToken,
          CapEv.reload, CapEv.extract, CapEv.invokeSolver (keys 2), CapEv.submitToken,
          CapEv.reload, CapEv.extract, CapEv.invokeSolver (keys 3), CapEv.submitToken],
          false)) ∧
    (∀ d : ℕ, (organicPaginationBlockedResult d).captcha = true ∧
      numAttempts (fun _ => organicPaginationBlockedResult d) = 5) := by
  refine ⟨?_, fun keys => rfl, fun d => ⟨rfl, rfl⟩⟩
  intro env onPage maxAttempts
  unfold handleCaptcha
  split
  · simp [countExtract]
  · exact handleCaptchaGo_extract_le env maxAttempts 1

/-- Witness for C6's amended theorem at a concrete run: a failing final
attempt persists a `failed` row carrying the attempt's error, and the
running time can exceed any bound (here 10^6 ms). -/
theorem C6_witness :
    (processJobFinal (fun _ => ⟨false, false, some "nav error".toList, 70⟩)).hasResult = true ∧
    (processJobFinal (fun _ => ⟨false, false, some "nav error".toList, 70⟩)).status =
      JobStatus.failed ∧
    ∃ o : ℕ → AttemptResult,
      (processJobFinal o).status = JobStatus.completed ∧ 1000000 < runningMs o (fun _ => 1) := by
  refine ⟨(C6_processJob_amended (fun _ => ⟨false, false, some "nav error".toList, 70⟩)
    (fun _ => 1)).1, ?_, ?_⟩
  · rcases (C6_processJob_amended (fun _ => ⟨false, false, some "nav error".toList, 70⟩)
      (fun _ => 1)).2.1 with h | h
    · exact absurd (((C6_processJob_amended (fun _ => ⟨false, false,
        some "nav error".toList, 70⟩) (fun _ => 1)).2.2.1).mp h) (by decide)
    · exact h
  · exact (C6_processJob_amended (fun _ => ⟨false, false, some "nav error".toList, 70⟩)
      (fun _ => 1)).2.2.2.2 1000000
